import Mathlib

/-!
Verification development for the beep_rust quiz-catalog service.

The definitions below are a shallow embedding of the Rust source:

* `generate_slug` (src/models.rs) — the topic slug generator, including its
  deterministic `DefaultHasher` (SipHash-1-3 with zero keys) fallback;
* `serialize_options_as_map` (src/models.rs) — the answer-option encoder that
  letters an ordered option list by position via `char::from_u32(65 + i)`;
* `create_topic` / `update_topic` slug handling (src/handlers.rs);
* `get_questions` pagination clamping (src/handlers.rs);
* `bulk_create_questions` and `get_topic_id_by_slug` (src/handlers.rs) — the
  transactional bulk-ingestion pipeline, modelled over an explicit database
  state; the outcome of each per-item INSERT is supplied by an oracle
  `res : Nat -> Option String` (`none` = row inserted, `some e` = the store
  rejected the row with message `e`), and transaction begin/commit/rollback
  are modelled as succeeding (their own I/O failures are outside the model).

Machine integers are modelled as `Nat` with explicit `% 2^64` where wrapping
matters.  Rust's `str::to_lowercase` and `str::trim` are modelled on the
ASCII range (full Unicode case tables are out of scope; every character the
claims exercise is ASCII).
-/

/-! ### Rust `DefaultHasher`: SipHash-1-3 with keys (0, 0), src/models.rs -/

/-- 64-bit rotate-left, values kept below `2^64`. -/
def rotl64 (x n : Nat) : Nat :=
  ((x <<< n) ||| (x >>> (64 - n))) % (2 ^ 64)

/-- 64-bit wrapping addition. -/
def add64 (a b : Nat) : Nat := (a + b) % (2 ^ 64)

/-- The four 64-bit words of the SipHash internal state. -/
structure SipState where
  v0 : Nat
  v1 : Nat
  v2 : Nat
  v3 : Nat

/-- One SIPROUND, exactly the `compress!` macro of Rust's `core::hash::sip`. -/
def sipRound (s : SipState) : SipState :=
  let v0 := add64 s.v0 s.v1
  let v1 := rotl64 s.v1 13
  let v1 := v1 ^^^ v0
  let v0 := rotl64 v0 32
  let v2 := add64 s.v2 s.v3
  let v3 := rotl64 s.v3 16
  let v3 := v3 ^^^ v2
  let v0 := add64 v0 v3
  let v3 := rotl64 v3 21
  let v3 := v3 ^^^ v0
  let v2 := add64 v2 v1
  let v1 := rotl64 v1 17
  let v1 := v1 ^^^ v2
  let v2 := rotl64 v2 32
  ⟨v0, v1, v2, v3⟩

/-- Absorb one 64-bit message word with one compression round (SipHash-1-3). -/
def sipCompress (s : SipState) (m : Nat) : SipState :=
  let s := { s with v3 := s.v3 ^^^ m }
  let s := sipRound s
  { s with v0 := s.v0 ^^^ m }

/-- Little-endian value of a byte list (first byte least significant). -/
def le64 (bs : List Nat) : Nat :=
  bs.foldr (fun b acc => b + 256 * acc) 0

/-- Absorb every complete 8-byte word; return the state and the tail bytes. -/
def sipWords : SipState → List Nat → SipState × List Nat
  | s, b0 :: b1 :: b2 :: b3 :: b4 :: b5 :: b6 :: b7 :: rest =>
      sipWords (sipCompress s (le64 [b0, b1, b2, b3, b4, b5, b6, b7])) rest
  | s, rest => (s, rest)

/-- SipHash-1-3 of a byte list, as produced by `DefaultHasher::finish`. -/
def siphash13 (k0 k1 : Nat) (msg : List Nat) : Nat :=
  let s : SipState :=
    ⟨k0 ^^^ 0x736f6d6570736575, k1 ^^^ 0x646f72616e646f6d,
     k0 ^^^ 0x6c7967656e657261, k1 ^^^ 0x7465646279746573⟩
  let (s, tail) := sipWords s msg
  let b := (((msg.length % 256) <<< 56) ||| le64 tail) % (2 ^ 64)
  let s := sipCompress s b
  let s := { s with v2 := s.v2 ^^^ 0xff }
  let s := sipRound (sipRound (sipRound s))
  s.v0 ^^^ s.v1 ^^^ s.v2 ^^^ s.v3

/-- UTF-8 bytes of one code point. -/
def utf8Char (c : Nat) : List Nat :=
  if c < 0x80 then [c]
  else if c < 0x800 then [0xC0 + c / 64, 0x80 + c % 64]
  else if c < 0x10000 then
    [0xE0 + c / 4096, 0x80 + (c / 64) % 64, 0x80 + c % 64]
  else
    [0xF0 + c / 262144, 0x80 + (c / 4096) % 64, 0x80 + (c / 64) % 64,
     0x80 + c % 64]

/-- UTF-8 bytes of a string. -/
def strBytes (s : String) : List Nat :=
  s.data.foldr (fun c acc => utf8Char c.toNat ++ acc) []

/-- `DefaultHasher::new()` hash of a `&str`: Rust's `Hash for str` feeds the
UTF-8 bytes followed by a single `0xff` byte, and `finish` is SipHash-1-3
with both keys zero. -/
def rustStrHash (s : String) : Nat :=
  siphash13 0 0 (strBytes s ++ [0xff])

/-! ### `generate_slug`, src/models.rs lines 216-242 -/

/-- ASCII part of `str::to_lowercase`. -/
def charLower (c : Char) : Char :=
  if 65 ≤ c.toNat ∧ c.toNat ≤ 90 then Char.ofNat (c.toNat + 32) else c

/-- Membership in the character class `[a-z0-9-]` of the strip regex. -/
def isSlugChar (c : Char) : Bool :=
  (97 ≤ c.toNat && c.toNat ≤ 122) || (48 ≤ c.toNat && c.toNat ≤ 57) ||
    c.toNat == 45

/-- `Regex::new(r"-+").replace_all(_, "-")`: collapse hyphen runs to one. -/
def collapseHyphens : List Char → List Char
  | [] => []
  | [c] => [c]
  | c1 :: c2 :: rest =>
      if c1 == '-' && c2 == '-' then collapseHyphens (c2 :: rest)
      else c1 :: collapseHyphens (c2 :: rest)

/-- `str::trim_matches('-')`: drop leading and trailing hyphens. -/
def trimHyphens (l : List Char) : List Char :=
  (((l.dropWhile (· == '-')).reverse.dropWhile (· == '-'))).reverse

/-- The cleaning pipeline of `generate_slug` before the emptiness test:
lower-case, replace each `' '` by `'-'`, strip everything outside
`[a-z0-9-]`, collapse hyphen runs, trim hyphens. -/
def cleanedSlug (name : String) : List Char :=
  let s1 := name.data.map charLower
  let s2 := s1.map fun c => if c == ' ' then '-' else c
  let s3 := s2.filter isSlugChar
  trimHyphens (collapseHyphens s3)

/-- `generate_slug` of src/models.rs: the cleaned name, or the deterministic
`topic-<DefaultHasher hash of the original name>` fallback when cleaning
leaves nothing. -/
def generate_slug (name : String) : String :=
  let s := cleanedSlug name
  if s.isEmpty then "topic-" ++ toString (rustStrHash name)
  else String.mk s

example : generate_slug "Hello World" = "hello-world" := by decide
example : generate_slug "a\tb" = "ab" := by decide
example : generate_slug "  A  --  B!!" = "a-b" := by decide

/-! ### `serialize_options_as_map`, src/models.rs lines 92-111 -/

/-- Rust `char::from_u32`: `none` exactly on surrogates and values above
`0x10FFFF`. -/
def char_from_u32 (n : Nat) : Option Char :=
  if n < 0xD800 ∨ (0xDFFF < n ∧ n < 0x110000) then some (Char.ofNat n)
  else none

/-- The enumerated labelling loop of `serialize_options_as_map`, carrying the
running index: each element at index `i` is paired with the label
`char::from_u32(65 + i).unwrap().to_string()`.  An `unwrap` on `none`
(a Rust panic) makes the whole result `none`. -/
def optionLabelsFrom : List String → Nat → Option (List (String × String))
  | [], _ => some []
  | text :: rest, i =>
    match char_from_u32 (65 + i) with
    | none => none
    | some ch =>
      match optionLabelsFrom rest (i + 1) with
      | none => none
      | some m => some ((String.mk [ch], text) :: m)

/-- `serialize_options_as_map`: the label→text pairs collected into the
serialized mapping, in positional order; `none` models the panic of the
`unwrap` on an invalid label code point. -/
def serialize_options_as_map (options : List String) :
    Option (List (String × String)) :=
  optionLabelsFrom options 0

example : serialize_options_as_map ["Paris", "London", "Berlin"] =
    some [("A", "Paris"), ("B", "London"), ("C", "Berlin")] := by decide
example : serialize_options_as_map [] = some [] := by decide

/-! ### Topic handlers, src/handlers.rs lines 78-150 -/

/-- ASCII part of Rust `char::is_whitespace`: space and U+0009..U+000D. -/
def isWsChar (c : Char) : Bool :=
  c.toNat == 32 || (9 ≤ c.toNat && c.toNat ≤ 13)

/-- Rust `str::trim` (ASCII range): drop whitespace from both ends. -/
def rustTrim (s : String) : String :=
  String.mk (((s.data.dropWhile isWsChar).reverse.dropWhile isWsChar).reverse)

/-- Request body of `create_topic`. -/
structure CreateTopic where
  name : String
  slug : Option String
  description : Option String

/-- Request body of `update_topic`. -/
structure UpdateTopic where
  name : Option String
  description : Option String
  slug : Option String

/-- A persisted topic row (id modelled as `Nat` in place of `Uuid`;
timestamps are store-generated and outside the model). -/
structure TopicRow where
  id : Nat
  name : String
  slug : String
  description : Option String
deriving DecidableEq

/-- The slug value `create_topic` binds into its INSERT: when the caller
supplied no slug or a blank one, the slug is derived from the name; the slug
is then trimmed in place before binding. -/
def create_topic_stored_slug (payload : CreateTopic) : Option String :=
  let slug_is_empty :=
    match payload.slug with
    | some s => rustTrim s == ""
    | none => true
  let slug0 :=
    if slug_is_empty then some (generate_slug payload.name) else payload.slug
  match slug0 with
  | some s => some (rustTrim s)
  | none => none

/-- The row produced by `update_topic`'s UPDATE ... COALESCE statement on an
existing row: a blank supplied slug is first re-derived from a supplied name,
then every NULL bind keeps the stored column. -/
def update_topic_apply (payload : UpdateTopic) (row : TopicRow) : TopicRow :=
  let payload :=
    match payload.name, payload.slug with
    | some name, some slug =>
      if rustTrim slug == "" then
        { payload with slug := some (generate_slug name) }
      else payload
    | _, _ => payload
  { row with
    name := payload.name.getD row.name
    slug := payload.slug.getD row.slug
    description := payload.description.or row.description }

/-! ### `get_questions` pagination, src/handlers.rs lines 183-189 -/

/-- Query parameters of `get_questions` (`i64` modelled as `Int`). -/
structure QuestionQuery where
  page : Option Int
  limit : Option Int

/-- `query.page.unwrap_or(1).max(1)`. -/
def get_questions_page (q : QuestionQuery) : Int :=
  max (q.page.getD 1) 1

/-- `query.limit.unwrap_or(20).max(1).min(100)`. -/
def get_questions_limit (q : QuestionQuery) : Int :=
  min (max (q.limit.getD 20) 1) 100

/-- `(page - 1) * limit`. -/
def get_questions_offset (q : QuestionQuery) : Int :=
  (get_questions_page q - 1) * get_questions_limit q

/-! ### Bulk ingestion, src/handlers.rs lines 444-534 -/

/-- `question_type` enum. -/
inductive QuestionType where
  | single
  | multiple
deriving DecidableEq

/-- `difficulty_level` enum. -/
inductive Difficulty where
  | easy
  | medium
  | hard
deriving DecidableEq

/-- One item of a bulk batch (`BulkQuestionData`, src/models.rs). -/
structure BulkQuestionData where
  question_number : Int
  question : String
  options : List String
  correct_answer : List String
  explanation : String
  question_type : QuestionType
  difficulty : Option Difficulty
  tags : Option (List String)
deriving DecidableEq

/-- Request body of `bulk_create_questions` (`BulkCreateQuestions`,
src/models.rs). -/
structure BulkCreateQuestions where
  topic_slug : String
  questions : List BulkQuestionData

/-- Response body of `bulk_create_questions` (`BulkCreateResponse`,
src/models.rs). -/
structure BulkCreateResponse where
  created : Nat
  failed : Nat
  errors : List String
deriving DecidableEq

/-- A persisted question row, with exactly the columns the bulk INSERT
binds. -/
structure QuestionRow where
  topic_id : Nat
  question_number : Int
  question : String
  options : List String
  correct_answer : List String
  explanation : String
  question_type : QuestionType
  difficulty : Difficulty
  tags : Option (List String)
deriving DecidableEq

/-- The visible store state: topic rows and question rows. -/
structure DbState where
  topics : List TopicRow
  questions : List QuestionRow
deriving DecidableEq

/-- An HTTP-level handler error: status code and message envelope. -/
abbrev HandlerErr := Nat × String

/-- `get_topic_id_by_slug`: `SELECT id FROM topics WHERE slug = $1` with
`fetch_optional`, a 404 quoting the slug when no row matches. -/
def get_topic_id_by_slug (db : DbState) (slug : String) :
    Except HandlerErr Nat :=
  match db.topics.find? (fun t => t.slug == slug) with
  | some t => Except.ok t.id
  | none =>
      Except.error (404, "Topic with slug '" ++ slug ++ "' not found")

/-- The row a successful per-item INSERT of the bulk loop writes:
`difficulty` defaults to Medium when the item omits it. -/
def mkQuestionRow (topic_id : Nat) (q : BulkQuestionData) : QuestionRow :=
  { topic_id := topic_id
    question_number := q.question_number
    question := q.question
    options := q.options
    correct_answer := q.correct_answer
    explanation := q.explanation
    question_type := q.question_type
    difficulty := q.difficulty.getD Difficulty.medium
    tags := q.tags }

/-- Accumulated state of the bulk loop: the counters, the diagnostic list,
and the rows inserted so far inside the open transaction. -/
structure LoopResult where
  created : Nat
  failed : Nat
  errors : List String
  pending : List QuestionRow
deriving DecidableEq

/-- The `for (index, question_data) in payload.questions.iter().enumerate()`
loop of `bulk_create_questions`.  `res i` is the store's verdict on the
INSERT of item `i`: `none` inserts the row into the transaction, `some e`
fails that single item with message `e`. -/
def bulkLoop (res : Nat → Option String) (tid : Nat) :
    List BulkQuestionData → Nat → Nat → Nat → List String →
    List QuestionRow → LoopResult
  | [], _, created, failed, errors, pending =>
      ⟨created, failed, errors, pending⟩
  | q :: rest, i, created, failed, errors, pending =>
    match res i with
    | none =>
        bulkLoop res tid rest (i + 1) (created + 1) failed errors
          (pending ++ [mkQuestionRow tid q])
    | some e =>
        bulkLoop res tid rest (i + 1) created (failed + 1)
          (errors ++ ["Question " ++ toString (i + 1) ++ ": " ++ e]) pending

/-- `bulk_create_questions`: resolve the slug (404 aborts before any
transaction), run the loop over every item, then commit the pending rows iff
`failed == 0`, else roll the whole transaction back.  Returns the handler
result together with the store state visible afterwards. -/
def bulk_create_questions (res : Nat → Option String)
    (payload : BulkCreateQuestions) (db : DbState) :
    Except HandlerErr BulkCreateResponse × DbState :=
  match get_topic_id_by_slug db payload.topic_slug with
  | Except.error e => (Except.error e, db)
  | Except.ok tid =>
    let r := bulkLoop res tid payload.questions 0 0 0 [] []
    let db' :=
      if r.failed = 0 then { db with questions := db.questions ++ r.pending }
      else db
    (Except.ok ⟨r.created, r.failed, r.errors⟩, db')

example :
    bulk_create_questions (fun i => if i = 1 then some "boom" else none)
      ⟨"t", [⟨1, "q1", ["a"], ["a"], "e", .single, none, none⟩,
             ⟨2, "q2", ["a"], ["a"], "e", .single, none, none⟩,
             ⟨3, "q3", ["a"], ["a"], "e", .single, none, none⟩]⟩
      ⟨[⟨7, "T", "t", none⟩], []⟩ =
    (Except.ok ⟨2, 1, ["Question 2: boom"]⟩, ⟨[⟨7, "T", "t", none⟩], []⟩) :=
  rfl

/-! ### C9: pagination clamping -/

/-- C9: for every question-list request the effective page is
`max(requested, 1)` with default 1 when absent, and the effective limit is
clamped into `[1, 100]` with default 20 when absent; in particular
`limit = 500` becomes 100 and `page = 0` becomes 1. -/
theorem get_questions_clamping :
    (∀ q : QuestionQuery, q.page = none → get_questions_page q = 1) ∧
    (∀ q : QuestionQuery, q.limit = none → get_questions_limit q = 20) ∧
    (∀ (q : QuestionQuery) (p : Int), q.page = some p →
      get_questions_page q = max p 1) ∧
    (∀ (q : QuestionQuery) (l : Int), q.limit = some l →
      1 ≤ get_questions_limit q ∧ get_questions_limit q ≤ 100 ∧
        (1 ≤ l → l ≤ 100 → get_questions_limit q = l)) ∧
    get_questions_limit ⟨none, some 500⟩ = 100 ∧
    get_questions_page ⟨some 0, none⟩ = 1 := by
  refine ⟨fun q h => ?_, fun q h => ?_, fun q p h => ?_, fun q l h => ?_,
    by decide, by decide⟩
  · simp [get_questions_page, h]
  · simp [get_questions_limit, h]
  · simp [get_questions_page, h]
  · refine ⟨?_, ?_, fun h1 h2 => ?_⟩ <;>
      (simp [get_questions_limit, h]; try omega)

/-- Witness for C9, at the concrete request `page = 0, limit = 500`. -/
theorem get_questions_clamping_witness :
    (⟨some 0, some 500⟩ : QuestionQuery).page = some 0 ∧
    get_questions_page ⟨some 0, some 500⟩ = max 0 1 :=
  ⟨rfl, get_questions_clamping.2.2.1 ⟨some 0, some 500⟩ 0 rfl⟩

/-! ### C7: slug auto-derivation at topic creation -/

/-- C7: `create_topic` derives the slug from the name exactly when the
caller supplied no slug or a blank (whitespace-only) one; the stored slug is
the trimmed derived slug in that case, and the trimmed caller-supplied slug
otherwise. -/
theorem create_topic_slug_derivation (payload : CreateTopic) :
    ((payload.slug = none ∨ ∃ s, payload.slug = some s ∧ rustTrim s = "") →
      create_topic_stored_slug payload =
        some (rustTrim (generate_slug payload.name))) ∧
    (∀ s, payload.slug = some s → rustTrim s ≠ "" →
      create_topic_stored_slug payload = some (rustTrim s)) := by
  constructor
  · rintro (h | ⟨s, hs, ht⟩)
    · simp [create_topic_stored_slug, h]
    · simp [create_topic_stored_slug, hs, ht]
  · intro s hs hne
    simp [create_topic_stored_slug, hs, hne]

/-- Witness for C7: creating a topic named `"My Topic"` with no slug stores
the derived, trimmed slug `"my-topic"`. -/
theorem create_topic_slug_derivation_witness :
    create_topic_stored_slug ⟨"My Topic", none, none⟩ = some "my-topic" :=
  ((create_topic_slug_derivation ⟨"My Topic", none, none⟩).1
    (Or.inl rfl)).trans (by decide)

/-! ### C8: update never silently regenerates the slug -/

/-- C8: a topic update supplying a new name but no slug leaves the stored
slug unchanged (it is not regenerated from the new name), leaves the id
unchanged, sets the name, and leaves the description unchanged when it is
not supplied either. -/
theorem update_topic_preserves_slug (payload : UpdateTopic) (row : TopicRow)
    (n : String) (hn : payload.name = some n) (hs : payload.slug = none) :
    (update_topic_apply payload row).slug = row.slug ∧
    (update_topic_apply payload row).id = row.id ∧
    (update_topic_apply payload row).name = n ∧
    (payload.description = none →
      (update_topic_apply payload row).description = row.description) := by
  refine ⟨?_, ?_, ?_, fun hd => ?_⟩ <;>
    (simp [update_topic_apply, hn, hs, Option.or]; try simp_all [Option.or])

/-- Witness for C8: renaming topic 7 to `"New"` with no slug in the payload
keeps slug `"old-slug"` and description intact. -/
theorem update_topic_preserves_slug_witness :
    (update_topic_apply ⟨some "New", none, none⟩
      ⟨7, "Old", "old-slug", some "d"⟩).slug = "old-slug" ∧
    (update_topic_apply ⟨some "New", none, none⟩
      ⟨7, "Old", "old-slug", some "d"⟩).id = 7 ∧
    (update_topic_apply ⟨some "New", none, none⟩
      ⟨7, "Old", "old-slug", some "d"⟩).name = "New" ∧
    (update_topic_apply ⟨some "New", none, none⟩
      ⟨7, "Old", "old-slug", some "d"⟩).description = some "d" := by
  have h := update_topic_preserves_slug ⟨some "New", none, none⟩
    ⟨7, "Old", "old-slug", some "d"⟩ "New" rfl rfl
  exact ⟨h.1, h.2.1, h.2.2.1, h.2.2.2 rfl⟩

/-! ### C6 and C10: the option-label encoder -/

/-- While every label code point `65 + i` stays below the surrogate block,
the labelling loop succeeds and pairs each element with its positional
label. -/
theorem optionLabelsFrom_valid (opts : List String) :
    ∀ i, 65 + i + opts.length ≤ 0xD800 →
      optionLabelsFrom opts i =
        some ((opts.enumFrom i).map
          fun p => (String.mk [Char.ofNat (65 + p.1)], p.2)) := by
  induction opts with
  | nil => intro i h; simp [optionLabelsFrom]
  | cons t rest ih =>
    intro i h
    have hlen : 65 + i + (t :: rest).length = 65 + i + rest.length + 1 := by
      simp; omega
    have h1 : 65 + i < 0xD800 := by rw [hlen] at h; omega
    have hc : char_from_u32 (65 + i) = some (Char.ofNat (65 + i)) := by
      unfold char_from_u32
      rw [if_pos (Or.inl h1)]
    simp only [optionLabelsFrom, hc, ih (i + 1) (by rw [hlen] at h; omega)]
    simp [List.enumFrom]

/-- C6: the option encoder maps an ordered list of option strings to the
mapping that pairs position `i` with label `Char.ofNat (65 + i)`
(0→"A", 1→"B", …); in particular the empty list yields the empty mapping
and a three-element list yields the A/B/C mapping. -/
theorem serialize_options_as_map_positional (opts : List String)
    (h : opts.length ≤ 26) :
    serialize_options_as_map opts =
      some (opts.enum.map fun p => (String.mk [Char.ofNat (65 + p.1)], p.2)) := by
  have hv := optionLabelsFrom_valid opts 0 (by omega)
  simpa [serialize_options_as_map, List.enum] using hv

/-- Witness for C6 at `["Paris", "London", "Berlin"]`. -/
theorem serialize_options_as_map_positional_witness :
    (["Paris", "London", "Berlin"] : List String).length ≤ 26 ∧
    serialize_options_as_map ["Paris", "London", "Berlin"] =
      some [("A", "Paris"), ("B", "London"), ("C", "Berlin")] :=
  ⟨by decide,
   (serialize_options_as_map_positional ["Paris", "London", "Berlin"]
      (by decide)).trans (by decide)⟩

/-- Once the running label code point reaches the surrogate block, the
`unwrap` of `char::from_u32` fails and the whole encoding is `none`. -/
theorem optionLabelsFrom_stuck (opts : List String) :
    ∀ i, 65 + i ≤ 0xD800 → 0xD800 < 65 + i + opts.length →
      optionLabelsFrom opts i = none := by
  induction opts with
  | nil => intro i h1 h2; simp at h2; omega
  | cons t rest ih =>
    intro i h1 h2
    rcases eq_or_lt_of_le h1 with heq | hlt
    · have hc : char_from_u32 (65 + i) = none := by
        rw [heq]; decide
      simp only [optionLabelsFrom, hc]
    · have hc : char_from_u32 (65 + i) = some (Char.ofNat (65 + i)) := by
        unfold char_from_u32
        rw [if_pos (Or.inl hlt)]
      have hr : optionLabelsFrom rest (i + 1) = none := by
        refine ih (i + 1) (by omega) ?_
        have : (t :: rest).length = rest.length + 1 := by simp
        omega
      simp only [optionLabelsFrom, hc, hr]

/-- C10: the encoder is not total: labels are taken from consecutive code
points starting at 65, so element 26 already gets the non-letter label "[",
and a list long enough for `65 + index` to reach the surrogate block makes
the `unwrap` panic — modelled as the `none` result — instead of returning a
mapping. -/
theorem serialize_options_as_map_not_total :
    (∀ opts : List String, opts.length = 55232 →
      serialize_options_as_map opts = none) ∧
    serialize_options_as_map (List.replicate 27 "x") =
      some ((List.range 27).map
        fun i => (String.mk [Char.ofNat (65 + i)], "x")) ∧
    String.mk [Char.ofNat (65 + 26)] = "[" := by
  refine ⟨fun opts h => ?_, by decide, by decide⟩
  have hs := optionLabelsFrom_stuck opts 0 (by omega) (by omega)
  simpa [serialize_options_as_map] using hs

/-- Witness for C10: a 55232-element option list is rejected wholesale. -/
theorem serialize_options_as_map_not_total_witness :
    (List.replicate 55232 "x").length = 55232 ∧
    serialize_options_as_map (List.replicate 55232 "x") = none :=
  ⟨List.length_replicate 55232 "x",
   serialize_options_as_map_not_total.1 _ (List.length_replicate 55232 "x")⟩

/-! ### C4: deterministic hash fallback for degenerate names -/

/-- C4: when cleaning leaves no character, `generate_slug` returns
`"topic-"` followed by the decimal `DefaultHasher` (SipHash-1-3) hash of the
original name, and the function is deterministic: equal names always give
equal slugs. -/
theorem generate_slug_degenerate_fallback :
    (∀ name : String, cleanedSlug name = [] →
      generate_slug name = "topic-" ++ toString (rustStrHash name)) ∧
    (∀ n1 n2 : String, n1 = n2 → generate_slug n1 = generate_slug n2) := by
  constructor
  · intro name h
    simp [generate_slug, h]
  · intro n1 n2 h
    rw [h]

/-- Witness for C4 at the all-punctuation name `"!!!"`. -/
theorem generate_slug_degenerate_fallback_witness :
    cleanedSlug "!!!" = [] ∧
    generate_slug "!!!" = "topic-" ++ toString (rustStrHash "!!!") :=
  ⟨by decide, generate_slug_degenerate_fallback.1 "!!!" (by decide)⟩

/-! ### C5: only the ASCII space is hyphenated -/

/-- C5 counterexample: the claim predicts that a tab between two words is
replaced by a hyphen (`"a\tb"` ↦ `"a-b"`), but `generate_slug` only maps
the single ASCII space to a hyphen and the strip step deletes the tab, so
`"a\tb"` ↦ `"ab"`. -/
theorem generate_slug_tab_counterexample :
    generate_slug "a\tb" = "ab" ∧ generate_slug "a\tb" ≠ "a-b" :=
  ⟨by decide, by decide⟩

/-! ### C1, C2, C3: the bulk ingestion pipeline -/

/-- Number of items of the batch (from running index `i`) whose INSERT
succeeds. -/
def countSuccessesFrom (res : Nat → Option String) :
    List BulkQuestionData → Nat → Nat
  | [], _ => 0
  | _ :: rest, i =>
    (if (res i).isNone then 1 else 0) + countSuccessesFrom res rest (i + 1)

/-- Number of items of the batch (from running index `i`) whose INSERT
fails. -/
def countFailuresFrom (res : Nat → Option String) :
    List BulkQuestionData → Nat → Nat
  | [], _ => 0
  | _ :: rest, i =>
    (if (res i).isSome then 1 else 0) + countFailuresFrom res rest (i + 1)

/-- The diagnostics of the failing items, in submission order, each
formatted as `"Question {1-based index}: {cause}"`. -/
def errorListFrom (res : Nat → Option String) :
    List BulkQuestionData → Nat → List String
  | [], _ => []
  | _ :: rest, i =>
    match res i with
    | none => errorListFrom res rest (i + 1)
    | some e =>
      ("Question " ++ toString (i + 1) ++ ": " ++ e) ::
        errorListFrom res rest (i + 1)

/-- The rows of the succeeding items, in submission order. -/
def successRowsFrom (res : Nat → Option String) (tid : Nat) :
    List BulkQuestionData → Nat → List QuestionRow
  | [], _ => []
  | q :: rest, i =>
    match res i with
    | none => mkQuestionRow tid q :: successRowsFrom res tid rest (i + 1)
    | some _ => successRowsFrom res tid rest (i + 1)

/-- The bulk loop visits every item: its final accumulators are the initial
ones extended by the success count, failure count, diagnostic list and
pending rows over the whole remaining batch. -/
theorem bulkLoop_spec (res : Nat → Option String) (tid : Nat) :
    ∀ (items : List BulkQuestionData) (i created failed : Nat)
      (errors : List String) (pending : List QuestionRow),
      bulkLoop res tid items i created failed errors pending =
        ⟨created + countSuccessesFrom res items i,
         failed + countFailuresFrom res items i,
         errors ++ errorListFrom res items i,
         pending ++ successRowsFrom res tid items i⟩ := by
  intro items
  induction items with
  | nil =>
    intro i c f errs pend
    simp [bulkLoop, countSuccessesFrom, countFailuresFrom, errorListFrom,
      successRowsFrom]
  | cons q rest ih =>
    intro i c f errs pend
    cases hres : res i with
    | none =>
      simp only [bulkLoop, hres, ih, countSuccessesFrom, countFailuresFrom,
        errorListFrom, successRowsFrom, Option.isNone_none, Option.isSome_none,
        if_true, Bool.false_eq_true, if_false, LoopResult.mk.injEq]
      exact ⟨by omega, by omega, by simp, by simp⟩
    | some e =>
      simp only [bulkLoop, hres, ih, countSuccessesFrom, countFailuresFrom,
        errorListFrom, successRowsFrom, Option.isNone_some, Option.isSome_some,
        if_true, Bool.false_eq_true, if_false, LoopResult.mk.injEq]
      exact ⟨by omega, by omega, by simp, by simp⟩

/-- Every item is either counted as created or as failed: the two counters
sum to the batch size. -/
theorem countSuccessesFrom_add_countFailuresFrom (res : Nat → Option String) :
    ∀ (items : List BulkQuestionData) (i : Nat),
      countSuccessesFrom res items i + countFailuresFrom res items i =
        items.length := by
  intro items
  induction items with
  | nil => intro i; simp [countSuccessesFrom, countFailuresFrom]
  | cons q rest ih =>
    intro i
    have h := ih (i + 1)
    simp only [countSuccessesFrom, countFailuresFrom, List.length_cons]
    cases hres : res i <;> simp [hres] <;> omega

/-- If no item fails, the pending rows are exactly one row per batch item. -/
theorem successRowsFrom_of_no_failure (res : Nat → Option String) (tid : Nat) :
    ∀ (items : List BulkQuestionData) (i : Nat),
      countFailuresFrom res items i = 0 →
      successRowsFrom res tid items i = items.map (mkQuestionRow tid) := by
  intro items
  induction items with
  | nil => intro i _; simp [successRowsFrom]
  | cons q rest ih =>
    intro i h0
    cases hres : res i with
    | none =>
      have h0' : countFailuresFrom res rest (i + 1) = 0 := by
        simp only [countFailuresFrom, hres] at h0
        simpa using h0
      simp only [successRowsFrom, hres, List.map]
      rw [ih (i + 1) h0']
    | some e =>
      exfalso
      simp [countFailuresFrom, hres] at h0

/-- One failing item makes the failure counter positive. -/
theorem countFailuresFrom_pos (res : Nat → Option String) :
    ∀ (items : List BulkQuestionData) (i j : Nat), j < items.length →
      (res (i + j)).isSome = true → 0 < countFailuresFrom res items i := by
  intro items
  induction items with
  | nil => intro i j hj _; simp at hj
  | cons q rest ih =>
    intro i j hj hs
    cases j with
    | zero =>
      simp only [Nat.add_zero] at hs
      simp [countFailuresFrom, hs]
    | succ j' =>
      have hj' : j' < rest.length := by simp at hj; omega
      have hs' : (res ((i + 1) + j')).isSome = true := by
        have harith : (i + 1) + j' = i + (j' + 1) := by omega
        rw [harith]; exact hs
      have hpos := ih (i + 1) j' hj' hs'
      simp only [countFailuresFrom]
      cases hres : (res i).isSome <;> (simp; try omega)

/-- C2: a bulk call whose `topic_slug` matches no topic fails as a whole
with a 404 quoting the original slug, before any transaction work: the
store state is returned unchanged and no row of the batch is created,
whatever the per-item verdicts would have been. -/
theorem bulk_create_questions_unknown_slug (res : Nat → Option String)
    (payload : BulkCreateQuestions) (db : DbState)
    (h : ∀ t ∈ db.topics, t.slug ≠ payload.topic_slug) :
    bulk_create_questions res payload db =
      (Except.error (404,
        "Topic with slug '" ++ payload.topic_slug ++ "' not found"), db) := by
  have hf : db.topics.find? (fun t => t.slug == payload.topic_slug) = none := by
    rw [List.find?_eq_none]
    intro t ht
    simpa using h t ht
  unfold bulk_create_questions get_topic_id_by_slug
  rw [hf]

/-- Witness for C2: slug `"missing"` against a store that only has slug
`"present"`. -/
theorem bulk_create_questions_unknown_slug_witness :
    bulk_create_questions (fun _ => none) ⟨"missing", []⟩
      ⟨[⟨1, "T", "present", none⟩], []⟩ =
      (Except.error (404, "Topic with slug 'missing' not found"),
       ⟨[⟨1, "T", "present", none⟩], []⟩) :=
  (bulk_create_questions_unknown_slug (fun _ => none) ⟨"missing", []⟩
    ⟨[⟨1, "T", "present", none⟩], []⟩ (by decide)).trans rfl

/-- C1: bulk ingestion is all-or-nothing.  When the slug resolves, the
handler returns `ok`; if the reported failure count is zero the whole batch
(one row per item) is appended to the visible store atomically, if it is
non-zero the visible store is exactly the initial one — and any batch
containing at least one failing item leaves the store unchanged, including
its individually succeeding items. -/
theorem bulk_create_questions_all_or_nothing (res : Nat → Option String)
    (payload : BulkCreateQuestions) (db : DbState) (tid : Nat)
    (h : get_topic_id_by_slug db payload.topic_slug = Except.ok tid)
    (resp : BulkCreateResponse) (db' : DbState)
    (hr : bulk_create_questions res payload db = (Except.ok resp, db')) :
    (resp.failed = 0 →
      db'.questions =
        db.questions ++ payload.questions.map (mkQuestionRow tid)) ∧
    (resp.failed ≠ 0 → db' = db) ∧
    ((∃ j, j < payload.questions.length ∧ (res j).isSome = true) →
      db' = db) := by
  have hb : bulk_create_questions res payload db =
      (Except.ok ⟨(bulkLoop res tid payload.questions 0 0 0 [] []).created,
                  (bulkLoop res tid payload.questions 0 0 0 [] []).failed,
                  (bulkLoop res tid payload.questions 0 0 0 [] []).errors⟩,
       if (bulkLoop res tid payload.questions 0 0 0 [] []).failed = 0
       then { db with questions :=
                db.questions ++
                  (bulkLoop res tid payload.questions 0 0 0 [] []).pending }
       else db) := by
    unfold bulk_create_questions
    rw [h]
  rw [bulkLoop_spec] at hb
  simp only [Nat.zero_add, List.nil_append] at hb
  have hcomb := hb.symm.trans hr
  rw [Prod.mk.injEq] at hcomb
  obtain ⟨hresp, hdb⟩ := hcomb
  injection hresp with hresp
  subst hresp
  subst hdb
  refine ⟨fun h0 => ?_, fun hne => ?_, fun ⟨j, hj, hjs⟩ => ?_⟩
  · simp only at h0
    rw [if_pos h0]
    rw [successRowsFrom_of_no_failure res tid payload.questions 0 h0]
  · simp only at hne
    rw [if_neg hne]
  · have hpos := countFailuresFrom_pos res payload.questions 0 j hj
      (by simpa using hjs)
    rw [if_neg (by omega)]

/-- Sample batch item used by the bulk-ingestion witnesses. -/
def sampleItem (n : Int) : BulkQuestionData :=
  ⟨n, "q", ["a"], ["a"], "e", QuestionType.single, none, none⟩

/-- Witness for C1: a single-item batch whose item fails is rolled back:
the visible store is unchanged. -/
theorem bulk_create_questions_all_or_nothing_witness :
    ((1 : Nat) = 0 →
      ([] : List QuestionRow) = [] ++ [mkQuestionRow 7 (sampleItem 1)]) ∧
    ((1 : Nat) ≠ 0 →
      (⟨[⟨7, "T", "t", none⟩], []⟩ : DbState) = ⟨[⟨7, "T", "t", none⟩], []⟩) ∧
    ((∃ j, j < 1 ∧ (some "bad" : Option String).isSome = true) →
      (⟨[⟨7, "T", "t", none⟩], []⟩ : DbState) = ⟨[⟨7, "T", "t", none⟩], []⟩) :=
  bulk_create_questions_all_or_nothing (fun _ => some "bad")
    ⟨"t", [sampleItem 1]⟩ ⟨[⟨7, "T", "t", none⟩], []⟩ 7 rfl
    ⟨0, 1, ["Question 1: bad"]⟩ ⟨[⟨7, "T", "t", none⟩], []⟩ rfl

/-- C3: when the slug resolves, the loop runs to completion over every
submitted item in order — the reported response counts one success per
succeeding item and one failure per failing item, carries exactly one
`"Question {1-based index}: {cause}"` diagnostic per failing item in
submission order, and the two counters sum to the batch size. -/
theorem bulk_create_questions_visits_every_item (res : Nat → Option String)
    (payload : BulkCreateQuestions) (db : DbState) (tid : Nat)
    (h : get_topic_id_by_slug db payload.topic_slug = Except.ok tid) :
    (bulk_create_questions res payload db).1 =
      Except.ok ⟨countSuccessesFrom res payload.questions 0,
                 countFailuresFrom res payload.questions 0,
                 errorListFrom res payload.questions 0⟩ ∧
    countSuccessesFrom res payload.questions 0 +
      countFailuresFrom res payload.questions 0 =
      payload.questions.length := by
  constructor
  · have hb : bulk_create_questions res payload db =
        (Except.ok ⟨(bulkLoop res tid payload.questions 0 0 0 [] []).created,
                    (bulkLoop res tid payload.questions 0 0 0 [] []).failed,
                    (bulkLoop res tid payload.questions 0 0 0 [] []).errors⟩,
         if (bulkLoop res tid payload.questions 0 0 0 [] []).failed = 0
         then { db with questions :=
                  db.questions ++
                    (bulkLoop res tid payload.questions 0 0 0 [] []).pending }
         else db) := by
      unfold bulk_create_questions
      rw [h]
    rw [hb, bulkLoop_spec]
    simp
  · exact countSuccessesFrom_add_countFailuresFrom res payload.questions 0

/-- Witness for C3: a three-item batch whose second item fails reports
`created = 2, failed = 1, errors = ["Question 2: bad"]`. -/
theorem bulk_create_questions_visits_every_item_witness :
    (bulk_create_questions (fun i => if i = 1 then some "bad" else none)
      ⟨"t", [sampleItem 1, sampleItem 2, sampleItem 3]⟩
      ⟨[⟨7, "T", "t", none⟩], []⟩).1 =
      Except.ok ⟨2, 1, ["Question 2: bad"]⟩ :=
  ((bulk_create_questions_visits_every_item
      (fun i => if i = 1 then some "bad" else none)
      ⟨"t", [sampleItem 1, sampleItem 2, sampleItem 3]⟩
      ⟨[⟨7, "T", "t", none⟩], []⟩ 7 rfl).1).trans rfl

/-! ### C5 amended: space vs. other whitespace in `generate_slug` -/

/-- Lower-case ASCII letters and digits: the characters that survive every
cleaning step of `generate_slug` unchanged. -/
def isLowerAlnum (c : Char) : Bool :=
  (97 ≤ c.toNat && c.toNat ≤ 122) || (48 ≤ c.toNat && c.toNat ≤ 57)

/-- A map that fixes every element of a list leaves it unchanged. -/
theorem map_id_of {l : List Char} {f : Char → Char}
    (h : ∀ c ∈ l, f c = c) : l.map f = l := by
  conv_rhs => rw [← List.map_id l]
  exact List.map_congr_left h

/-- Lower-case alphanumeric characters are fixed by the lower-casing step. -/
theorem charLower_fixed {c : Char} (h : isLowerAlnum c = true) :
    charLower c = c := by
  have hno : ¬(65 ≤ c.toNat ∧ c.toNat ≤ 90) := by
    simp only [isLowerAlnum, Bool.or_eq_true, Bool.and_eq_true,
      decide_eq_true_eq] at h
    omega
  unfold charLower
  rw [if_neg hno]

/-- Lower-case alphanumeric characters are not the space character. -/
theorem beq_space_false {c : Char} (h : isLowerAlnum c = true) :
    (c == ' ') = false := by
  rw [beq_eq_false_iff_ne]
  intro he
  subst he
  exact absurd h (by decide)

/-- Lower-case alphanumeric characters are not the hyphen. -/
theorem beq_hyphen_false {c : Char} (h : isLowerAlnum c = true) :
    (c == '-') = false := by
  rw [beq_eq_false_iff_ne]
  intro he
  subst he
  exact absurd h (by decide)

/-- Lower-case alphanumeric characters survive the `[^a-z0-9-]` strip. -/
theorem isSlugChar_of_lowerAlnum {c : Char} (h : isLowerAlnum c = true) :
    isSlugChar c = true := by
  simp only [isLowerAlnum, Bool.or_eq_true, Bool.and_eq_true,
    decide_eq_true_eq] at h
  simp only [isSlugChar, Bool.or_eq_true, Bool.and_eq_true,
    decide_eq_true_eq, beq_iff_eq]
  omega

/-- Collapsing hyphen runs commutes with a hyphen-free leading segment. -/
theorem collapseHyphens_append (A : List Char) (rest : List Char)
    (hA : ∀ c ∈ A, (c == '-') = false) :
    collapseHyphens (A ++ rest) = A ++ collapseHyphens rest := by
  induction A with
  | nil => simp
  | cons c A' ih =>
    have hc : (c == '-') = false := hA c (by simp)
    have hA' : ∀ x ∈ A', (x == '-') = false := fun x hx => hA x (by simp [hx])
    rw [List.cons_append]
    cases hAr : A' ++ rest with
    | nil =>
      obtain ⟨h1, h2⟩ := List.append_eq_nil.mp hAr
      subst h1
      subst h2
      simp [collapseHyphens]
    | cons d tail =>
      have hstep : collapseHyphens (c :: d :: tail) =
          c :: collapseHyphens (d :: tail) := by
        simp [collapseHyphens, hc]
      rw [hstep, ← hAr, ih hA']
      simp

/-- A hyphen-free list is unchanged by hyphen-run collapsing. -/
theorem collapseHyphens_eq_self (L : List Char)
    (h : ∀ c ∈ L, (c == '-') = false) : collapseHyphens L = L := by
  have h2 := collapseHyphens_append L [] h
  simpa [collapseHyphens] using h2

/-- `dropWhile (· == '-')` is the identity when the head is not a hyphen. -/
theorem dropWhile_hyphen_eq_self (l : List Char)
    (h : ∀ c ∈ l.head?, (c == '-') = false) :
    l.dropWhile (· == '-') = l := by
  cases l with
  | nil => rfl
  | cons c t =>
    have hc := h c rfl
    rw [List.dropWhile_cons, hc]
    simp

/-- Trimming hyphens is the identity when neither end is a hyphen. -/
theorem trimHyphens_eq_self (l : List Char)
    (h1 : ∀ c ∈ l.head?, (c == '-') = false)
    (h2 : ∀ c ∈ l.getLast?, (c == '-') = false) :
    trimHyphens l = l := by
  unfold trimHyphens
  rw [dropWhile_hyphen_eq_self l h1,
    dropWhile_hyphen_eq_self l.reverse
      (fun c hc => h2 c ((List.head?_reverse l) ▸ hc)),
    List.reverse_reverse]

/-- Cleaning two lower-alphanumeric words joined by a separator that is not
the ASCII space and not a slug character simply deletes the separator. -/
theorem cleanedSlug_sep (a b : String) (w : Char)
    (ha : ∀ c ∈ a.data, isLowerAlnum c = true)
    (hb : ∀ c ∈ b.data, isLowerAlnum c = true)
    (hwl : charLower w = w) (hwsp : (w == ' ') = false)
    (hwslug : isSlugChar w = false) :
    cleanedSlug (a ++ String.mk [w] ++ b) = a.data ++ b.data := by
  have hdata : (a ++ String.mk [w] ++ b).data = a.data ++ w :: b.data := by
    rw [String.data_append, String.data_append]
    simp
  have hno : ∀ c ∈ a.data ++ b.data, (c == '-') = false := by
    intro c hc
    rcases List.mem_append.mp hc with h | h
    · exact beq_hyphen_false (ha c h)
    · exact beq_hyphen_false (hb c h)
  show trimHyphens (collapseHyphens
      ((((a ++ String.mk [w] ++ b).data.map charLower).map
          fun c => if c == ' ' then '-' else c).filter isSlugChar)) =
    a.data ++ b.data
  rw [hdata, List.map_append, List.map_cons,
    map_id_of (fun c hc => charLower_fixed (ha c hc)), hwl,
    map_id_of (fun c hc => charLower_fixed (hb c hc)),
    List.map_append, List.map_cons,
    map_id_of (fun c hc => by rw [beq_space_false (ha c hc)]; rfl),
    map_id_of (fun c hc => by rw [beq_space_false (hb c hc)]; rfl)]
  rw [show (if w == ' ' then '-' else w) = w by rw [hwsp]; rfl]
  rw [List.filter_append, List.filter_cons, hwslug]
  simp only [Bool.false_eq_true, if_false]
  rw [List.filter_eq_self.mpr (fun c hc => isSlugChar_of_lowerAlnum (ha c hc)),
    List.filter_eq_self.mpr (fun c hc => isSlugChar_of_lowerAlnum (hb c hc))]
  rw [collapseHyphens_eq_self _ hno]
  exact trimHyphens_eq_self _
    (fun c hc => hno c (List.mem_of_mem_head? hc))
    (fun c hc => hno c (List.mem_of_mem_getLast? hc))

/-- Cleaning two lower-alphanumeric words joined by one ASCII space turns
the space into a single hyphen. -/
theorem cleanedSlug_space (a b : String)
    (ha : ∀ c ∈ a.data, isLowerAlnum c = true)
    (hb : ∀ c ∈ b.data, isLowerAlnum c = true)
    (ha' : a.data ≠ []) (hb' : b.data ≠ []) :
    cleanedSlug (a ++ " " ++ b) = a.data ++ '-' :: b.data := by
  have hdata : (a ++ " " ++ b).data = a.data ++ ' ' :: b.data := by
    rw [String.data_append, String.data_append,
      show (" " : String).data = [' '] from rfl]
    simp
  have hnoA : ∀ c ∈ a.data, (c == '-') = false :=
    fun c hc => beq_hyphen_false (ha c hc)
  have hnoB : ∀ c ∈ b.data, (c == '-') = false :=
    fun c hc => beq_hyphen_false (hb c hc)
  show trimHyphens (collapseHyphens
      ((((a ++ " " ++ b).data.map charLower).map
          fun c => if c == ' ' then '-' else c).filter isSlugChar)) =
    a.data ++ '-' :: b.data
  rw [hdata, List.map_append, List.map_cons,
    map_id_of (fun c hc => charLower_fixed (ha c hc)),
    show charLower ' ' = ' ' from by decide,
    map_id_of (fun c hc => charLower_fixed (hb c hc)),
    List.map_append, List.map_cons,
    map_id_of (fun c hc => by rw [beq_space_false (ha c hc)]; rfl),
    map_id_of (fun c hc => by rw [beq_space_false (hb c hc)]; rfl),
    show (if ' ' == ' ' then '-' else ' ') = '-' from rfl,
    List.filter_append,
    List.filter_cons_of_pos (by decide),
    List.filter_eq_self.mpr (fun c hc => isSlugChar_of_lowerAlnum (ha c hc)),
    List.filter_eq_self.mpr (fun c hc => isSlugChar_of_lowerAlnum (hb c hc))]
  obtain ⟨d, b', hB⟩ := List.exists_cons_of_ne_nil hb'
  have hd : (d == '-') = false :=
    hnoB d (by rw [hB]; exact List.mem_cons_self d b')
  rw [collapseHyphens_append a.data ('-' :: b.data) hnoA, hB]
  have hcol : collapseHyphens ('-' :: d :: b') =
      '-' :: collapseHyphens (d :: b') := by
    simp [collapseHyphens, hd]
  rw [hcol,
    collapseHyphens_eq_self (d :: b') (fun c hc => hnoB c (hB.symm ▸ hc)),
    ← hB]
  refine trimHyphens_eq_self _ ?_ ?_
  · intro c hc
    exact hnoA c (List.mem_of_mem_head?
      ((List.head?_append_of_ne_nil a.data ha') ▸ hc))
  · intro c hc
    rw [List.getLast?_append_cons, hB, List.getLast?_cons_cons] at hc
    exact hnoB c (hB.symm ▸ List.mem_of_mem_getLast? hc)

/-- C5 amended: `generate_slug` hyphenates only the single ASCII space
character; any other whitespace character (e.g. tab or newline) between two
words is deleted by the `[^a-z0-9-]` strip without inserting a hyphen, so
the two words are joined directly, while a space between the same two words
becomes one hyphen. -/
theorem generate_slug_space_only_hyphenation (a b : String)
    (ha : ∀ c ∈ a.data, isLowerAlnum c = true)
    (hb : ∀ c ∈ b.data, isLowerAlnum c = true)
    (ha' : a.data ≠ []) (hb' : b.data ≠ []) :
    (∀ w : Char, w = '\t' ∨ w = '\n' →
      generate_slug (a ++ String.mk [w] ++ b) = a ++ b) ∧
    generate_slug (a ++ " " ++ b) = a ++ "-" ++ b := by
  have hne : ¬((a.data ++ b.data).isEmpty = true) := by
    rw [List.isEmpty_iff, List.append_eq_nil]
    exact fun h => ha' h.1
  have hne2 : ¬((a.data ++ '-' :: b.data).isEmpty = true) := by
    rw [List.isEmpty_iff, List.append_eq_nil]
    exact fun h => ha' h.1
  constructor
  · intro w hw
    have hcl : cleanedSlug (a ++ String.mk [w] ++ b) = a.data ++ b.data := by
      rcases hw with h | h <;> subst h <;>
        exact cleanedSlug_sep a b _ ha hb (by decide) (by decide) (by decide)
    unfold generate_slug
    rw [hcl, if_neg hne]
    exact String.ext (by rw [String.data_append])
  · have hcl := cleanedSlug_space a b ha hb ha' hb'
    unfold generate_slug
    rw [hcl, if_neg hne2]
    refine String.ext ?_
    rw [String.data_append, String.data_append,
      show ("-" : String).data = ['-'] from rfl]
    simp

/-- Witness for amended C5 at the words `"foo"` and `"bar"`: a tab joins
them as `"foobar"`, a space joins them as `"foo-bar"`. -/
theorem generate_slug_space_only_hyphenation_witness :
    generate_slug ("foo" ++ "\t" ++ "bar") = "foo" ++ "bar" ∧
    generate_slug ("foo" ++ " " ++ "bar") = "foo" ++ "-" ++ "bar" :=
  ⟨(generate_slug_space_only_hyphenation "foo" "bar" (by decide) (by decide)
      (by decide) (by decide)).1 '\t' (Or.inl rfl),
   (generate_slug_space_only_hyphenation "foo" "bar" (by decide) (by decide)
      (by decide) (by decide)).2⟩
